import Mathlib

/-!
Verification of the ShipOfFools social-simulation repository.

The repository contains three re-implementations of the same core; the
claims below reference `social_system.py` / `character.py` / `event_system.py`
(the graph-based implementation), `ship_of_fools.py` (the self-contained
implementation), and `src/systems/leadership_system.py` (the modular
implementation).  Each Python module is embedded as its own namespace.
Python floats are modelled as rationals, Python dicts as ordered
association lists, Python sets as finsets, and raised exceptions as the
error branch of `Except`.
-/

/-- Python `max(xs, key=f)`: returns the first-encountered element with the
maximal key, `none` on an empty collection (where CPython raises
`ValueError`; callers below handle that case explicitly). -/
def pyArgmax {α : Type} (f : α → ℚ) : List α → Option α
  | [] => none
  | x :: xs =>
    match pyArgmax f xs with
    | none => some x
    | some m => if f x < f m then some m else some x

/-- Lookup in an ordered association list (Python dict / object dict). -/
def alookup {α : Type} : List (String × α) → String → Option α
  | [], _ => none
  | p :: ps, k => if p.1 = k then some p.2 else alookup ps k

/-- Python exceptions relevant to this repository. -/
inductive PyErr
  | attributeError (attr : String)
  | valueError (msg : String)
  | typeError (msg : String)
deriving DecidableEq, Repr

instance {ε α : Type} [DecidableEq ε] [DecidableEq α] : DecidableEq (Except ε α) :=
  fun x y =>
    match x, y with
    | .ok a, .ok b =>
      if h : a = b then .isTrue (by rw [h]) else .isFalse (by simp [h])
    | .error e, .error f =>
      if h : e = f then .isTrue (by rw [h]) else .isFalse (by simp [h])
    | .ok _, .error _ => .isFalse (by simp)
    | .error _, .ok _ => .isFalse (by simp)

namespace SocialSystem

/-! ## `social_system.py`

The social graph (a `networkx.Graph`) is embedded as a node list plus an
edge list keyed by unordered node-name pairs.  Of the `Character` objects
stored on the nodes only the fields the module reads are kept: the name
and the Big-Five extraversion trait. -/

inductive RelationshipType
  | friendship
  | conflict
  | romantic
  | neutral
  | alliance
deriving DecidableEq, Repr

def RelationshipType.value : RelationshipType → String
  | .friendship => "friendship"
  | .conflict => "conflict"
  | .romantic => "romantic"
  | .neutral => "neutral"
  | .alliance => "alliance"

/-- A node of the social graph: the character's name and the
`big_five_traits[BigFive.EXTRAVERSION]` value read by
`get_most_influential_character`. -/
structure SNode where
  name : String
  extraversion : ℚ
deriving DecidableEq, Repr

structure SEdge where
  u : String
  v : String
  weight : ℚ
  rel_type : RelationshipType
deriving DecidableEq, Repr

/-- Whether the edge's unordered endpoint pair is `{a, b}`. -/
def SEdge.joins (e : SEdge) (a b : String) : Prop :=
  (e.u = a ∧ e.v = b) ∨ (e.u = b ∧ e.v = a)

instance (e : SEdge) (a b : String) : Decidable (e.joins a b) := by
  unfold SEdge.joins; infer_instance

structure SocialGraph where
  nodes : List SNode
  edges : List SEdge
deriving DecidableEq, Repr

def SocialGraph.hasNode (g : SocialGraph) (n : String) : Prop :=
  ∃ nd ∈ g.nodes, nd.name = n

instance (g : SocialGraph) (n : String) : Decidable (g.hasNode n) := by
  unfold SocialGraph.hasNode; infer_instance

/-- `networkx.Graph.has_edge`. -/
def SocialGraph.has_edge (g : SocialGraph) (a b : String) : Prop :=
  ∃ e ∈ g.edges, e.joins a b

instance (g : SocialGraph) (a b : String) : Decidable (g.has_edge a b) := by
  unfold SocialGraph.has_edge; infer_instance

/-- `networkx.Graph.add_edge`: updates the attributes in place when the
unordered pair already has an edge, otherwise inserts a new edge. -/
def SocialGraph.add_edge (g : SocialGraph) (a b : String) (w : ℚ)
    (t : RelationshipType) : SocialGraph :=
  if g.has_edge a b then
    { g with edges := g.edges.map (fun e =>
        if e.joins a b then { e with weight := w, rel_type := t } else e) }
  else
    { g with edges := g.edges ++ [⟨a, b, w, t⟩] }

/-- `SocialSystem.add_character`: re-adding an existing name only logs a
warning and leaves the graph unchanged. -/
def add_character (g : SocialGraph) (nd : SNode) : SocialGraph :=
  if g.hasNode nd.name then g
  else { g with nodes := g.nodes ++ [nd] }

/-- `SocialSystem.add_relationship`.  The Python body contains no `raise`:
when either character is missing it logs an error and returns normally,
leaving the graph unmodified.  The `Except` channel (used elsewhere to
model Python exceptions) is therefore never used by this function. -/
def add_relationship (g : SocialGraph) (n1 n2 : String)
    (initial_strength : ℚ) (rel_type : RelationshipType) :
    Except PyErr SocialGraph :=
  if ¬ g.hasNode n1 ∨ ¬ g.hasNode n2 then
    .ok g
  else
    .ok (g.add_edge n1 n2 initial_strength rel_type)

/-- `SocialSystem.update_relationship`. -/
def update_relationship (g : SocialGraph) (n1 n2 : String)
    (interaction_type : String) : Except PyErr SocialGraph :=
  let change : ℚ :=
    if interaction_type = "cooperation" then 2/10
    else if interaction_type = "conflict" then -3/10
    else 0
  let rel_type_change : Option RelationshipType :=
    if interaction_type = "cooperation" then some .friendship
    else if interaction_type = "conflict" then some .conflict
    else none
  if g.has_edge n1 n2 then
    .ok { g with edges := g.edges.map (fun e =>
      if e.joins n1 n2 then
        { e with
          weight := max 0 (min 1 (e.weight + change)),
          rel_type :=
            if e.rel_type = .neutral then rel_type_change.getD e.rel_type
            else e.rel_type }
      else e) }
  else
    add_relationship g n1 n2 (max 0 (min 1 change)) (rel_type_change.getD .neutral)

/-- `SocialSystem.decay_relationships`: every weight drops by the decay
rate with floor 0, and the edges whose new weight is exactly 0 are removed
from the graph. -/
def decay_relationships (g : SocialGraph) (decay_rate : ℚ) : SocialGraph :=
  let decayed := g.edges.map (fun e => { e with weight := max 0 (e.weight - decay_rate) })
  { g with edges := decayed.filter (fun e => decide (e.weight ≠ 0)) }

/-- `SocialSystem.get_relationships`: an unknown name yields an empty
dictionary (with a warning log, no exception); a known name yields one
entry per neighbor carrying the edge's weight and type value. -/
def get_relationships (g : SocialGraph) (character_name : String) :
    List (String × ℚ × String) :=
  if g.hasNode character_name then
    g.edges.filterMap (fun e =>
      if e.u = character_name then some (e.v, e.weight, e.rel_type.value)
      else if e.v = character_name then some (e.u, e.weight, e.rel_type.value)
      else none)
  else []

/-- `networkx.Graph.degree`: a self-loop contributes 2. -/
def SocialGraph.degree (g : SocialGraph) (n : String) : ℕ :=
  (g.edges.map (fun e =>
    if e.u = n ∧ e.v = n then 2 else if e.u = n ∨ e.v = n then 1 else 0)).sum

/-- Influence score of a node: graph degree plus the extraversion trait. -/
def influence_score (g : SocialGraph) (nd : SNode) : ℚ :=
  (g.degree nd.name : ℚ) + nd.extraversion

/-- `SocialSystem.get_most_influential_character`. -/
def get_most_influential_character (g : SocialGraph) : Option SNode :=
  pyArgmax (influence_score g) g.nodes

end SocialSystem

namespace ShipOfFools

/-! ## `ship_of_fools.py`

The self-contained implementation: needs, characters, alliances and the
`Ship` routines the claims reference (`_form_alliance`, `_update_alliances`,
`_attempt_mutiny`).  Randomness is passed in explicitly: the per-alliance
perturbation draws of `_update_alliances` become two streams indexed by
the number of `random` calls made so far. -/

inductive Ideology
  | authoritarian
  | reformist
  | revolutionary
  | conservative
  | liberal
  | anarchist
deriving DecidableEq, Repr

inductive GroupIdentity
  | authority
  | workers
  | women
  | lgbtq
  | religious
  | indigenous
  | merchants
deriving DecidableEq, Repr

structure Memory where
  day : ℕ
  event : String
  interpretation : String
  emotional_impact : ℚ
  witnesses : List ℕ
deriving DecidableEq, Repr

structure Need where
  name : String
  value : ℚ
  critical_threshold : ℚ := 30
deriving DecidableEq, Repr

def Need.is_critical (n : Need) : Prop := n.value < n.critical_threshold

instance (n : Need) : Decidable n.is_critical := by
  unfold Need.is_critical; infer_instance

structure Character where
  id : ℕ
  name : String
  role : String
  groups : Finset GroupIdentity
  ideology : Ideology
  needs : List (String × Need)
  stress : ℚ := 50
  trust_in_captain : ℚ := 70
  memories : List Memory := []
  alliances : Finset ℕ := ∅
  speaking_ability : ℚ := 50
  influence : ℚ := 50
deriving DecidableEq

/-- The clamp `min(100, max(0, x))` used throughout `ship_of_fools.py`. -/
def clamp0100 (x : ℚ) : ℚ := min 100 (max 0 x)

/-- `Character.update_needs`: each named delta is added to the matching
need's value and the result clamped to [0, 100]; names that match no need
are skipped. -/
def Character.update_needs (c : Character) (changes : List (String × ℚ)) : Character :=
  changes.foldl (fun c ch =>
    if c.needs.any (fun p => p.1 = ch.1) then
      { c with needs := c.needs.map (fun p =>
          if p.1 = ch.1 then (p.1, { p.2 with value := clamp0100 (p.2.value + ch.2) })
          else p) }
    else c) c

/-- `Character.get_critical_needs`. -/
def Character.get_critical_needs (c : Character) : List String :=
  c.needs.filterMap (fun p => if p.2.is_critical then some p.1 else none)

/-- `Character.calculate_satisfaction`. -/
def Character.calculate_satisfaction (c : Character) : ℚ :=
  if c.needs = [] then 50
  else (c.needs.map (fun p => p.2.value)).sum / c.needs.length

structure Alliance where
  members : Finset ℕ
  purpose : String
  strength : ℚ := 50
  created_day : ℕ := 0
  broken : Bool := false
deriving DecidableEq

/-- `Alliance.add_member`: `set.add` plus an unconditional `strength += 5`,
even when the id is already a member. -/
def Alliance.add_member (a : Alliance) (char_id : ℕ) : Alliance :=
  { a with members := insert char_id a.members, strength := a.strength + 5 }

/-- `Alliance.remove_member`: discard the id, `strength -= 10`, and set the
`broken` flag when fewer than two members remain. -/
def Alliance.remove_member (a : Alliance) (char_id : ℕ) : Alliance :=
  let ms := a.members.erase char_id
  { a with
    members := ms,
    strength := a.strength - 10,
    broken := if ms.card < 2 then true else a.broken }

/-- Result of `Ship._form_alliance`: the two (mutated) characters, the
ship's alliance list afterwards, and whether a new alliance was created. -/
structure FormResult where
  char1 : Character
  char2 : Character
  alliances : List Alliance
  created_new : Bool
deriving DecidableEq

/-- The loop of `Ship._form_alliance`: walk the alliance list in order and
fold both ids into the first alliance containing either id (two
`add_member` calls); `none` when no alliance contains either id.  The
`broken` flag is not consulted. -/
def fold_into_first (id1 id2 : ℕ) : List Alliance → Option (List Alliance)
  | [] => none
  | a :: rest =>
    if id1 ∈ a.members ∨ id2 ∈ a.members then
      some (((a.add_member id1).add_member id2) :: rest)
    else
      (fold_into_first id1 id2 rest).map (a :: ·)

/-- `Ship._form_alliance`.  The `purpose` string is drawn from the ship's
random source and passed in here. -/
def form_alliance (char1 char2 : Character) (alliances : List Alliance)
    (purpose : String) (day : ℕ) : FormResult :=
  let c1 := { char1 with alliances := insert char2.id char1.alliances }
  let c2 := { char2 with alliances := insert char1.id char2.alliances }
  match fold_into_first char1.id char2.id alliances with
  | some alls => ⟨c1, c2, alls, false⟩
  | none =>
      ⟨c1, c2,
       alliances ++ [{ members := {char1.id, char2.id}, purpose := purpose,
                       strength := 50, created_day := day, broken := false }],
       true⟩

/-- `Ship._update_alliances`.  `trig k` models the k-th
`random.random() < 0.1` draw and `delta k` the matching
`random.uniform(-5, 5)` draw; broken alliances are skipped without
consuming a draw. -/
def update_alliances (trig : ℕ → Bool) (delta : ℕ → ℚ) :
    ℕ → List Alliance → List Alliance
  | _, [] => []
  | k, a :: rest =>
    if a.broken then a :: update_alliances trig delta k rest
    else if trig k then
      let s := a.strength + delta k
      { a with strength := s, broken := if s < 20 then true else a.broken }
        :: update_alliances trig delta (k + 1) rest
    else a :: update_alliances trig delta (k + 1) rest

/-- Mutineer predicate of `Ship._attempt_mutiny`: revolutionary or
anarchist ideology, and not the captain. -/
def is_mutineer (c : Character) : Prop :=
  (c.ideology = .revolutionary ∨ c.ideology = .anarchist) ∧ c.role ≠ "captain"

instance (c : Character) : Decidable (is_mutineer c) := by
  unfold is_mutineer; infer_instance

/-- Supporter predicate of `Ship._attempt_mutiny`: trust in the captain
below 30, and not the captain. -/
def is_supporter (c : Character) : Prop :=
  c.trust_in_captain < 30 ∧ c.role ≠ "captain"

instance (c : Character) : Decidable (is_supporter c) := by
  unfold is_supporter; infer_instance

/-- Outcome of `Ship._attempt_mutiny` on the ship fields it touches. -/
structure MutinyResult where
  success : Bool
  captain_authority : ℚ
  heading : ℚ
  characters : List Character
deriving DecidableEq

/-- `Ship._attempt_mutiny`.  On enough support the captain's authority is
zeroed and the heading set to 180 (south); `max` over an empty mutineer
list would raise `ValueError` in Python.  Otherwise every mutineer gets
`stress += 15` and `influence -= 10` (neither is clamped here). -/
def attempt_mutiny (characters : List Character)
    (captain_authority heading : ℚ) : Except PyErr MutinyResult :=
  let mutineers := characters.filter (fun c => decide (is_mutineer c))
  let support_count := (characters.filter (fun c => decide (is_supporter c))).length
  if (support_count : ℚ) > (characters.length : ℚ) / 2 then
    match pyArgmax (fun c => c.influence) mutineers with
    | none => .error (.valueError "max() arg is an empty sequence")
    | some _ => .ok ⟨true, 0, 180, characters⟩
  else
    .ok ⟨false, captain_authority, heading,
         characters.map (fun c =>
           if is_mutineer c then
             { c with stress := c.stress + 15, influence := c.influence - 10 }
           else c)⟩

end ShipOfFools

namespace EventSystem

/-! ## `event_system.py` with the `Character` of `character.py`

Attribute access is dynamic (`getattr`/`setattr` on names derived from
the event's impact keys), so a character is embedded as its Python
attribute dictionary: an ordered association list from attribute name to
value.  Only the attribute names matter for the claims; values are a
small dynamic-value type. -/

inductive PyVal
  | num (q : ℚ)
  | str (s : String)
  | enumMember (cls : String) (member : String)
  | objVal
deriving DecidableEq, Repr

/-- A Python object's attribute dictionary. -/
abbrev PyObj := List (String × PyVal)

/-- The attributes assigned by `Character.__init__` in `character.py`, in
assignment order.  Neither `hunger`, `cooperation`, `conflict`, `trust`,
`rebellion_chance`, `stress`, `cooperation_chance` nor `moral_distress`
is among them. -/
def characterAttrDomain : List String :=
  ["name", "gender", "age", "social_class", "ethnic_origin",
   "sexual_orientation", "ideology", "belief_system", "resistance_to_change",
   "big_five_traits", "needs", "emotions", "psychological_state",
   "trauma_points", "psychological_resilience", "hidden_agenda", "backstory",
   "memory", "health"]

/-- The members of the `PsychologicalState` enum in `character.py`.
`ANXIOUS`, `CALM` and `AGGRESSIVE` are not among them. -/
def PsychologicalStateMembers : List String :=
  ["NORMAL", "ANGRY", "DEPRESSED", "COOPERATIVE", "PARANOID"]

/-- `getattr(obj, attr)`: raises `AttributeError` when the attribute is
not in the object's dictionary. -/
def pyGetattr (o : PyObj) (attr : String) : Except PyErr PyVal :=
  match alookup o attr with
  | some v => .ok v
  | none => .error (.attributeError attr)

/-- `setattr(obj, attr, v)`: overwrites an existing attribute or creates a
new one. -/
def pySetattr (o : PyObj) (attr : String) (v : PyVal) : PyObj :=
  if (alookup o attr).isSome then
    o.map (fun p => if p.1 = attr then (attr, v) else p)
  else o ++ [(attr, v)]

def PyVal.asNum : PyVal → Except PyErr ℚ
  | .num q => .ok q
  | _ => .error (.typeError "unsupported operand type")

/-- `s.endswith(suf)` combined with `s.replace(suf, "")`: for the impact
keys of this module the suffix occurs exactly once, at the end, so the
pair amounts to stripping the suffix. -/
def removeSuffix? (s suf : String) : Option String :=
  let sd := s.data.reverse
  let fd := suf.data.reverse
  if sd.take fd.length = fd then some ⟨(sd.drop fd.length).reverse⟩ else none

/-- `event.impact.get(key, 0)`. -/
def impactGet (impact : List (String × ℚ)) (k : String) : ℚ :=
  (alookup impact k).getD 0

inductive EventType
  | natural_disaster
  | man_made_event
  | philosophical_dilemma
  | technical_failure
deriving DecidableEq, Repr

structure Event where
  name : String
  description : String
  event_type : EventType
  impact : List (String × ℚ)
  weight : ℚ := 1
  severity : ℚ := 1
deriving DecidableEq, Repr

/-- `EventSystem._create_predefined_events`. -/
def predefined_events : List Event :=
  [{ name := "Food Shortage",
     description := "Food supplies on the ship are running out faster than expected. Tensions are rising among people.",
     event_type := .natural_disaster,
     impact := [("hunger_increase", 5/10), ("cooperation_decrease", 2/10),
                ("conflict_increase", 3/10)],
     weight := 3 },
   { name := "Silent Rebellion",
     description := "A group of characters secretly begins to sabotage, believing the leadership is not fair.",
     event_type := .man_made_event,
     impact := [("trust_decrease", 4/10), ("rebellion_chance_increase", 5/10)],
     weight := 1 },
   { name := "Technological Breakdown",
     description := "A serious malfunction has occurred in the reactor providing power to the ship. Volunteers are needed for repairs.",
     event_type := .technical_failure,
     impact := [("stress_increase", 3/10), ("cooperation_chance_increase", 4/10)],
     weight := 2 },
   { name := "Philosophical Dilemma",
     description := "Only one more person can board the ship. Should this last person be allowed on board, or should community morals take precedence?",
     event_type := .philosophical_dilemma,
     impact := [("moral_distress_increase", 6/10), ("cooperation_decrease", 1/10)],
     weight := 1/2 }]

/-- One iteration of the direct-impact loop of `apply_event_impact`:
`getattr` the named attribute, add or subtract `value * severity`, clamp
to [0, 1], `setattr` the result back. -/
def apply_impact_item (severity : ℚ) (char : PyObj) (item : String × ℚ) :
    Except PyErr PyObj :=
  match removeSuffix? item.1 "_increase" with
  | some attr_name => do
      let delta := item.2 * severity
      let current ← pyGetattr char attr_name
      let cur ← current.asNum
      pure (pySetattr char attr_name (.num (max 0 (min 1 (cur + delta)))))
  | none =>
    match removeSuffix? item.1 "_decrease" with
    | some attr_name => do
        let delta := item.2 * severity
        let current ← pyGetattr char attr_name
        let cur ← current.asNum
        pure (pySetattr char attr_name (.num (max 0 (min 1 (cur - delta)))))
    | none => pure char

/-- Access to a member of the `PsychologicalState` enum class: a missing
member name raises `AttributeError`. -/
def psState (member : String) : Except PyErr PyVal :=
  if member ∈ PsychologicalStateMembers then
    .ok (.enumMember "PsychologicalState" member)
  else .error (.attributeError member)

/-- `char.<attr> = max(0.0, min(1.0, char.<attr> + amount))` on the
`cooperation_chance` / `rebellion_chance` attributes. -/
def adjustChance (char : PyObj) (attr : String) (amount : ℚ) :
    Except PyErr PyObj := do
  let current ← pyGetattr char attr
  let cur ← current.asNum
  pure (pySetattr char attr (.num (max 0 (min 1 (cur + amount)))))

/-- The psychological-state `if/elif` chain closing the per-character loop
body of `apply_event_impact`, in Python's evaluation order: each branch
test evaluates the enum member on the right of `==` first. -/
def psych_section (severity : ℚ) (impact : List (String × ℚ)) (char : PyObj) :
    Except PyErr PyObj := do
  let ps ← pyGetattr char "psychological_state"
  let anxious ← psState "ANXIOUS"
  if ps = anxious then do
    let c ← adjustChance char "cooperation_chance"
      (-(impactGet impact "cooperation_decrease") * severity)
    adjustChance c "rebellion_chance"
      (impactGet impact "rebellion_chance_increase" * severity)
  else do
    let calm ← psState "CALM"
    if ps = calm then do
      let c ← adjustChance char "cooperation_chance"
        (impactGet impact "cooperation_chance_increase" * severity * (1/2))
      adjustChance c "rebellion_chance"
        (-(impactGet impact "rebellion_chance_increase") * severity * (1/2))
    else do
      let depressed ← psState "DEPRESSED"
      if ps = depressed then do
        let c ← adjustChance char "cooperation_chance"
          (-(impactGet impact "cooperation_decrease") * severity * (3/2))
        adjustChance c "rebellion_chance"
          (impactGet impact "rebellion_chance_increase" * severity * (3/2))
      else do
        let aggressive ← psState "AGGRESSIVE"
        if ps = aggressive then
          adjustChance char "rebellion_chance"
            (impactGet impact "rebellion_chance_increase" * severity * 2)
        else pure char

/-- The whole loop body of `apply_event_impact` for one character. -/
def apply_to_char (ev : Event) (char : PyObj) : Except PyErr PyObj := do
  let c ← ev.impact.foldlM (fun c item => apply_impact_item ev.severity c item) char
  psych_section ev.severity ev.impact c

/-- `EventSystem.apply_event_impact`: the characters are processed in
order and the first raised exception aborts the whole call. -/
def apply_event_impact (characters : List PyObj) (ev : Event) :
    Except PyErr (List PyObj) :=
  characters.foldlM (fun acc c => do
    let c' ← apply_to_char ev c
    pure (acc ++ [c'])) []

/-- `true` exactly on a raised `AttributeError`. -/
def isAttrError {α : Type} : Except PyErr α → Bool
  | .error (.attributeError _) => true
  | _ => false

end EventSystem

namespace Leadership

/-! ## `src/systems/leadership_system.py`

Only the `spokesperson` field of `Group` is read by
`check_for_leadership_change`, so a group is embedded as that field; a
character is embedded with the fields the method touches.  The in-place
mutation of the challenger object is rendered by rewriting any group
spokesperson with the challenger's id. -/

structure LChar where
  id : ℕ
  name : String
  role : String
  influence : ℚ
  trust_in_captain : ℚ
  stress : ℚ
  speaking_ability : ℚ
deriving DecidableEq, Repr

structure Group where
  spokesperson : Option LChar
deriving DecidableEq, Repr

/-- State after `check_for_leadership_change`: the controller's captain
reference, the incumbent object, the groups, and whether a deposition
happened. -/
structure LSResult where
  captain : Option LChar
  incumbent : Option LChar
  groups : List Group
  changed : Bool
deriving DecidableEq, Repr

/-- `[g.spokesperson for g in self.groups if g.spokesperson and
g.spokesperson.id != self.captain.id]`. -/
def candidatesOf (cap : LChar) (groups : List Group) : List LChar :=
  groups.filterMap (fun g =>
    g.spokesperson.bind (fun s => if s.id ≠ cap.id then some s else none))

/-- `LeadershipSystem.check_for_leadership_change`. -/
def check_for_leadership_change (captain : Option LChar) (groups : List Group) :
    LSResult :=
  match captain with
  | none => ⟨none, none, groups, false⟩
  | some cap =>
    if cap.trust_in_captain < 40 then
      match pyArgmax (fun c => c.influence) (candidatesOf cap groups) with
      | none => ⟨some cap, some cap, groups, false⟩
      | some new_leader =>
        if new_leader.influence > cap.influence + cap.trust_in_captain then
          let deposed := { cap with role := "deposed" }
          let crowned := { new_leader with role := "captain" }
          ⟨some crowned, some deposed,
           groups.map (fun g =>
             ⟨g.spokesperson.map (fun s =>
               if s.id = new_leader.id then crowned else s)⟩),
           true⟩
        else ⟨some cap, some cap, groups, false⟩
    else ⟨some cap, some cap, groups, false⟩

end Leadership

/-! ## Concrete data used to instantiate the theorems -/

/-- A node for the graph examples. -/
def ndAlice : SocialSystem.SNode := ⟨"Alice", 1/2⟩

def ndBob : SocialSystem.SNode := ⟨"Bob", 1/2⟩

/-- Two connected characters. -/
def gW : SocialSystem.SocialGraph :=
  ⟨[ndAlice, ndBob], [⟨"Alice", "Bob", 1/2, SocialSystem.RelationshipType.neutral⟩]⟩

/-- Two characters with no relationship yet: the configuration of the
conflict-creates-an-edge scenario. -/
def g1 : SocialSystem.SocialGraph := ⟨[ndAlice, ndBob], []⟩

/-- `g1` after `update_relationship(alice, bob, "conflict")`. -/
def g1after : SocialSystem.SocialGraph :=
  ⟨[ndAlice, ndBob], [⟨"Alice", "Bob", 0, SocialSystem.RelationshipType.conflict⟩]⟩

/-- A graph holding only Alice. -/
def g8 : SocialSystem.SocialGraph := ⟨[ndAlice], []⟩

/-- A `ship_of_fools.py` character with the given id, role, ideology,
trust in the captain, stress and influence. -/
def mkChar (id : ℕ) (role : String) (ideology : ShipOfFools.Ideology)
    (trust stress infl : ℚ) : ShipOfFools.Character :=
  { id := id, name := "c", role := role, groups := ∅, ideology := ideology,
    needs := [], stress := stress, trust_in_captain := trust, memories := [],
    alliances := ∅, speaking_ability := 50, influence := infl }

/-- A crew of ten: the captain plus nine others, exactly five of whom are
supporters (trust in the captain below 30); three of the supporters are
revolutionary mutineers. -/
def mutinyShip : List ShipOfFools.Character :=
  [mkChar 0 "captain" .authoritarian 70 20 90,
   mkChar 1 "worker" .revolutionary 20 80 40,
   mkChar 2 "worker" .revolutionary 20 80 35,
   mkChar 3 "worker" .revolutionary 20 80 30,
   mkChar 4 "worker" .liberal 20 60 40,
   mkChar 5 "passenger" .liberal 20 60 45,
   mkChar 6 "worker" .liberal 50 60 40,
   mkChar 7 "worker" .reformist 50 60 40,
   mkChar 8 "passenger" .conservative 50 60 25,
   mkChar 9 "intellectual" .liberal 50 55 60]

/-- Agent X of the needs scenario: a single `hunger` need at value 10 with
critical threshold 30. -/
def agentX : ShipOfFools.Character :=
  { id := 11, name := "X", role := "worker", groups := ∅,
    ideology := .liberal, needs := [("hunger", ⟨"hunger", 10, 30⟩)],
    stress := 50, trust_in_captain := 70, memories := [], alliances := ∅,
    speaking_ability := 50, influence := 50 }

def exChar1 : ShipOfFools.Character := mkChar 1 "worker" .liberal 70 50 50

def exChar3 : ShipOfFools.Character := mkChar 3 "worker" .liberal 70 50 50

/-- A live alliance of members 1 and 2 at the default strength. -/
def exAlliance : ShipOfFools.Alliance :=
  { members := {1, 2}, purpose := "p", strength := 50, created_day := 0, broken := false }

/-- A broken alliance of members 1 and 2. -/
def exBroken : ShipOfFools.Alliance :=
  { members := {1, 2}, purpose := "q", strength := 10, created_day := 0, broken := true }

/-- The incumbent of the succession scenario: influence 50, trust 35
(below the threshold 40). -/
def scenCap : Leadership.LChar :=
  { id := 0, name := "Captain", role := "captain", influence := 50,
    trust_in_captain := 35, stress := 20, speaking_ability := 80 }

/-- The sole challenger of the succession scenario: influence 60. -/
def scenChallenger : Leadership.LChar :=
  { id := 1, name := "Professor", role := "intellectual", influence := 60,
    trust_in_captain := 20, stress := 50, speaking_ability := 90 }

/-- A `character.py` character as its attribute dictionary: exactly the
attributes `__init__` assigns. -/
def exPyChar : EventSystem.PyObj :=
  EventSystem.characterAttrDomain.map (fun a => (a, EventSystem.PyVal.objVal))

/-- The first catalog event. -/
def evFoodShortage : EventSystem.Event :=
  EventSystem.predefined_events.getD 0
    { name := "", description := "", event_type := .natural_disaster, impact := [] }
theorem pyArgmax_eq_none_iff {α : Type} (f : α → ℚ) (l : List α) :
    pyArgmax f l = none ↔ l = [] := by
  cases l with
  | nil => simp [pyArgmax]
  | cons x xs =>
    simp only [pyArgmax]
    cases h : pyArgmax f xs with
    | none => simp
    | some m =>
      constructor
      · intro hcontra
        by_cases hlt : f x < f m <;> simp [hlt] at hcontra
      · intro hcontra
        exact absurd hcontra (List.cons_ne_nil x xs)

theorem pyArgmax_mem {α : Type} (f : α → ℚ) (l : List α) (m : α)
    (h : pyArgmax f l = some m) : m ∈ l := by
  induction l generalizing m with
  | nil => simp [pyArgmax] at h
  | cons x xs ih =>
    simp only [pyArgmax] at h
    cases hx : pyArgmax f xs with
    | none =>
      rw [hx] at h
      simp at h
      simp [h]
    | some m' =>
      rw [hx] at h
      by_cases hlt : f x < f m'
      · simp [hlt] at h
        subst h
        exact List.mem_cons_of_mem x (ih m' hx)
      · simp [hlt] at h
        simp [h]

theorem pyArgmax_le {α : Type} (f : α → ℚ) (l : List α) (m : α)
    (h : pyArgmax f l = some m) : ∀ y ∈ l, f y ≤ f m := by
  induction l generalizing m with
  | nil => simp [pyArgmax] at h
  | cons x xs ih =>
    intro y hy
    simp only [pyArgmax] at h
    cases hx : pyArgmax f xs with
    | none =>
      rw [hx] at h
      simp at h
      subst h
      have hxs := (pyArgmax_eq_none_iff f xs).mp hx
      subst hxs
      rcases List.mem_cons.mp hy with rfl | hmem
      · exact le_refl _
      · exact absurd hmem (List.not_mem_nil y)
    | some m' =>
      rw [hx] at h
      by_cases hlt : f x < f m'
      · simp [hlt] at h
        subst h
        rcases List.mem_cons.mp hy with rfl | hmem
        · exact le_of_lt hlt
        · exact ih m' hx y hmem
      · simp [hlt] at h
        subst h
        rcases List.mem_cons.mp hy with rfl | hmem
        · exact le_refl _
        · exact le_trans (ih m' hx y hmem) (le_of_not_lt hlt)

/-- The element returned by `pyArgmax` is the first maximum: everything
before it in the list has a strictly smaller key. -/
theorem pyArgmax_first {α : Type} (f : α → ℚ) (l : List α) (m : α)
    (h : pyArgmax f l = some m) :
    ∃ l₁ l₂, l = l₁ ++ m :: l₂ ∧ ∀ y ∈ l₁, f y < f m := by
  induction l generalizing m with
  | nil => simp [pyArgmax] at h
  | cons x xs ih =>
    simp only [pyArgmax] at h
    cases hx : pyArgmax f xs with
    | none =>
      rw [hx] at h
      simp at h
      subst h
      exact ⟨[], xs, rfl, by simp⟩
    | some m' =>
      rw [hx] at h
      by_cases hlt : f x < f m'
      · simp [hlt] at h
        subst h
        obtain ⟨l₁, l₂, heq, hsm⟩ := ih m' hx
        refine ⟨x :: l₁, l₂, by simp [heq], ?_⟩
        intro y hy
        rcases List.mem_cons.mp hy with rfl | hmem
        · exact hlt
        · exact hsm y hmem
      · simp [hlt] at h
        subst h
        exact ⟨[], xs, rfl, by simp⟩


theorem alookup_eq_none_of_not_mem {α : Type} (l : List (String × α)) (k : String)
    (h : k ∉ l.map Prod.fst) : alookup l k = none := by
  induction l with
  | nil => rfl
  | cons p ps ih =>
    simp only [List.map_cons, List.mem_cons, not_or] at h
    simp only [alookup]
    rw [if_neg (fun he : p.1 = k => h.1 he.symm)]
    exact ih h.2

theorem max0min1_bounds (x : ℚ) : 0 ≤ max 0 (min 1 x) ∧ max 0 (min 1 x) ≤ 1 :=
  ⟨le_max_left 0 _, max_le (by norm_num) (min_le_left 1 x)⟩

theorem clamp0100_bounds (x : ℚ) :
    0 ≤ ShipOfFools.clamp0100 x ∧ ShipOfFools.clamp0100 x ≤ 100 :=
  ⟨le_min (by norm_num) (le_max_left 0 x), min_le_left 100 _⟩

/-! ## C9: `get_most_influential_character` -/

/-- C9: `most_influential` returns `none` iff the agent set is empty;
otherwise it returns an agent present in the set, namely one maximizing
graph degree plus extraversion, with ties broken in favor of the
first-encountered agent in the collection's iteration order. -/
theorem C9_most_influential_spec (g : SocialSystem.SocialGraph) :
    (SocialSystem.get_most_influential_character g = none ↔ g.nodes = [])
    ∧ (∀ m, SocialSystem.get_most_influential_character g = some m →
        m ∈ g.nodes
        ∧ (∀ y ∈ g.nodes, SocialSystem.influence_score g y ≤ SocialSystem.influence_score g m)
        ∧ ∃ l₁ l₂, g.nodes = l₁ ++ m :: l₂
            ∧ ∀ y ∈ l₁, SocialSystem.influence_score g y < SocialSystem.influence_score g m) := by
  constructor
  · exact pyArgmax_eq_none_iff _ _
  · intro m hm
    exact ⟨pyArgmax_mem _ _ _ hm, pyArgmax_le _ _ _ hm, pyArgmax_first _ _ _ hm⟩

theorem C9_most_influential_spec_witness :
    ndAlice ∈ gW.nodes
    ∧ (∀ y ∈ gW.nodes, SocialSystem.influence_score gW y ≤ SocialSystem.influence_score gW ndAlice)
    ∧ ∃ l₁ l₂, gW.nodes = l₁ ++ ndAlice :: l₂
        ∧ ∀ y ∈ l₁, SocialSystem.influence_score gW y < SocialSystem.influence_score gW ndAlice :=
  (C9_most_influential_spec gW).2 ndAlice (by with_unfolding_all decide)

/-! ## C10: `get_relationships` -/

/-- C10: querying the relationships of an unknown agent returns an empty
mapping (no exception is modelled because the Python body cannot raise);
for a known agent the result has one entry per incident edge, carrying
that edge's strength and type. -/
theorem C10_get_relationships_spec (g : SocialSystem.SocialGraph) (nm : String) :
    (¬ g.hasNode nm → SocialSystem.get_relationships g nm = [])
    ∧ (g.hasNode nm → ∀ nb s t,
        (nb, s, t) ∈ SocialSystem.get_relationships g nm ↔
          ∃ e ∈ g.edges, e.joins nm nb ∧ e.weight = s ∧ e.rel_type.value = t)
    ∧ (g.hasNode nm → (SocialSystem.get_relationships g nm).length
        = (g.edges.filter (fun e => decide (e.u = nm ∨ e.v = nm))).length) := by
  refine ⟨?_, ?_, ?_⟩
  · intro h
    unfold SocialSystem.get_relationships
    rw [if_neg h]
  · intro h nb s t
    unfold SocialSystem.get_relationships
    rw [if_pos h, List.mem_filterMap]
    constructor
    · rintro ⟨e, he, hfe⟩
      by_cases hu : e.u = nm
      · rw [if_pos hu] at hfe
        simp only [Option.some.injEq, Prod.mk.injEq] at hfe
        obtain ⟨h1, h2, h3⟩ := hfe
        exact ⟨e, he, Or.inl ⟨hu, h1⟩, h2, h3⟩
      · rw [if_neg hu] at hfe
        by_cases hv : e.v = nm
        · rw [if_pos hv] at hfe
          simp only [Option.some.injEq, Prod.mk.injEq] at hfe
          obtain ⟨h1, h2, h3⟩ := hfe
          exact ⟨e, he, Or.inr ⟨h1, hv⟩, h2, h3⟩
        · rw [if_neg hv] at hfe
          exact absurd hfe (by simp)
    · rintro ⟨e, he, hj, hs, ht⟩
      refine ⟨e, he, ?_⟩
      rcases hj with ⟨hu, hv⟩ | ⟨hu, hv⟩
      · rw [if_pos hu]
        simp [hv, hs, ht]
      · by_cases hu' : e.u = nm
        · rw [if_pos hu']
          have hnb : e.v = nb := by rw [hv, ← hu', hu]
          simp [hnb, hs, ht]
        · rw [if_neg hu', if_pos hv]
          simp [hu, hs, ht]
  · intro h
    unfold SocialSystem.get_relationships
    rw [if_pos h]
    generalize g.edges = es
    induction es with
    | nil => rfl
    | cons e es ih =>
      by_cases hu : e.u = nm
      · simp [List.filterMap_cons, List.filter_cons, hu, ih]
      · by_cases hv : e.v = nm
        · simp [List.filterMap_cons, List.filter_cons, hu, hv, ih]
        · simp [List.filterMap_cons, List.filter_cons, hu, hv, ih]

theorem C10_get_relationships_spec_witness :
    ("Bob", (1:ℚ)/2, "neutral") ∈ SocialSystem.get_relationships gW "Alice" :=
  ((C10_get_relationships_spec gW "Alice").2.1 (by with_unfolding_all decide)
      "Bob" (1/2) "neutral").mpr
    ⟨⟨"Alice", "Bob", 1/2, SocialSystem.RelationshipType.neutral⟩,
     by with_unfolding_all decide, Or.inl ⟨rfl, rfl⟩, rfl, rfl⟩

/-! ## C8: `add_relationship` on a missing agent -/

/-- C8 (amended): `add_relationship` requires both agents to be present;
when either is absent it fails silently — an error is logged and the
method returns normally with the graph unchanged — rather than raising a
`NotFoundError` to the caller. -/
theorem C8_add_relationship_silent (g : SocialSystem.SocialGraph) (n1 n2 : String)
    (s : ℚ) (t : SocialSystem.RelationshipType)
    (h : ¬ g.hasNode n1 ∨ ¬ g.hasNode n2) :
    SocialSystem.add_relationship g n1 n2 s t = .ok g := by
  unfold SocialSystem.add_relationship
  rw [if_pos h]

theorem C8_add_relationship_silent_witness :
    SocialSystem.add_relationship g8 "Alice" "Zed" (1/2)
      SocialSystem.RelationshipType.neutral = .ok g8 :=
  C8_add_relationship_silent g8 "Alice" "Zed" (1/2)
    SocialSystem.RelationshipType.neutral (Or.inr (by with_unfolding_all decide))

/-- C8 counterexample to the claim as stated: adding a relationship whose
first endpoint is unknown returns normally (`.ok`) with the graph
unchanged — no `NotFoundError` is raised or propagated. -/
theorem C8_counterexample :
    SocialSystem.add_relationship g8 "Zed" "Alice" (1/2)
      SocialSystem.RelationshipType.neutral = .ok g8 := by
  with_unfolding_all decide

/-! ## C1: relationship-strength invariants -/

/-- A "conflict" interaction between two present agents with no prior edge
creates an edge with strength `clamp(-0.3, 0, 1) = 0` — and keeps it. -/
theorem update_relationship_conflict_new (g : SocialSystem.SocialGraph) (n1 n2 : String)
    (hn1 : g.hasNode n1) (hn2 : g.hasNode n2) (hne : ¬ g.has_edge n1 n2) :
    SocialSystem.update_relationship g n1 n2 "conflict"
      = .ok { g with edges := g.edges ++
          [⟨n1, n2, 0, SocialSystem.RelationshipType.conflict⟩] } := by
  have hnn : ¬ (¬ g.hasNode n1 ∨ ¬ g.hasNode n2) := by push_neg; exact ⟨hn1, hn2⟩
  simp only [SocialSystem.update_relationship, SocialSystem.add_relationship,
    SocialSystem.SocialGraph.add_edge]
  rw [if_neg hne, if_neg hnn, if_neg hne]
  simp only [if_neg (show ¬ ("conflict" : String) = "cooperation" from by decide),
    if_true, Option.getD_some]
  have e3 : max (0:ℚ) (min 1 (-3/10)) = 0 := by
    rw [min_eq_right (by norm_num : (-3/10 : ℚ) ≤ 1)]
    exact max_eq_left (by norm_num)
  rw [e3]

/-- C1 (amended): after `update_relationship` every edge strength is in
[0, 1], and after `decay_relationships` (at a nonnegative rate) every
remaining edge has strength strictly above 0 and at most 1 — any edge
decayed to exactly 0 is removed.  However, a "conflict" interaction on a
missing edge creates and retains an edge of strength exactly 0: the
zero-strength edge persists instead of being pruned. -/
theorem C1_relationship_strength_spec (g g' : SocialSystem.SocialGraph)
    (n1 n2 it : String) (rate : ℚ)
    (hg : ∀ e ∈ g.edges, 0 ≤ e.weight ∧ e.weight ≤ 1) (hr : 0 ≤ rate)
    (hu : SocialSystem.update_relationship g n1 n2 it = .ok g') :
    (∀ e ∈ g'.edges, 0 ≤ e.weight ∧ e.weight ≤ 1)
    ∧ (∀ e ∈ (SocialSystem.decay_relationships g rate).edges,
        0 < e.weight ∧ e.weight ≤ 1)
    ∧ (g.hasNode n1 → g.hasNode n2 → ¬ g.has_edge n1 n2 → it = "conflict" →
        g'.has_edge n1 n2
        ∧ ∀ e ∈ g'.edges, e.joins n1 n2 → e.weight = 0) := by
  refine ⟨?_, ?_, ?_⟩
  · intro e he
    simp only [SocialSystem.update_relationship] at hu
    by_cases hedge : g.has_edge n1 n2
    · rw [if_pos hedge] at hu
      simp only [Except.ok.injEq] at hu
      subst hu
      rcases List.mem_map.mp he with ⟨e₀, he₀, rfl⟩
      by_cases hj : e₀.joins n1 n2
      · rw [if_pos hj]
        exact max0min1_bounds _
      · rw [if_neg hj]
        exact hg e₀ he₀
    · rw [if_neg hedge] at hu
      simp only [SocialSystem.add_relationship] at hu
      by_cases hnn : ¬ g.hasNode n1 ∨ ¬ g.hasNode n2
      · rw [if_pos hnn] at hu
        simp only [Except.ok.injEq] at hu
        subst hu
        exact hg e he
      · rw [if_neg hnn] at hu
        simp only [SocialSystem.SocialGraph.add_edge] at hu
        rw [if_neg hedge] at hu
        simp only [Except.ok.injEq] at hu
        subst hu
        rcases List.mem_append.mp he with h0 | h1
        · exact hg e h0
        · rcases List.mem_singleton.mp h1 with rfl
          exact max0min1_bounds _
  · intro e he
    simp only [SocialSystem.decay_relationships] at he
    rcases List.mem_filter.mp he with ⟨hmem, hne0⟩
    rw [decide_eq_true_eq] at hne0
    rcases List.mem_map.mp hmem with ⟨e₀, he₀, rfl⟩
    constructor
    · exact lt_of_le_of_ne (le_max_left 0 _) (Ne.symm hne0)
    · calc max 0 (e₀.weight - rate) ≤ max 0 e₀.weight := by
            apply max_le_max (le_refl 0)
            linarith
        _ = e₀.weight := max_eq_right (hg e₀ he₀).1
        _ ≤ 1 := (hg e₀ he₀).2
  · intro hn1 hn2 hnedge hit
    subst hit
    rw [update_relationship_conflict_new g n1 n2 hn1 hn2 hnedge] at hu
    simp only [Except.ok.injEq] at hu
    subst hu
    constructor
    · exact ⟨⟨n1, n2, 0, SocialSystem.RelationshipType.conflict⟩, by simp,
        Or.inl ⟨rfl, rfl⟩⟩
    · intro e he hj
      rcases List.mem_append.mp he with h0 | h1
      · exact absurd ⟨e, h0, hj⟩ hnedge
      · rcases List.mem_singleton.mp h1 with rfl
        rfl

theorem C1_relationship_strength_spec_witness :
    g1after.has_edge "Alice" "Bob"
    ∧ ∀ e ∈ g1after.edges, e.joins "Alice" "Bob" → e.weight = 0 :=
  (C1_relationship_strength_spec g1 g1after "Alice" "Bob" "conflict" (1/100)
      (by with_unfolding_all decide) (by norm_num)
      (by with_unfolding_all decide)).2.2
    (by with_unfolding_all decide) (by with_unfolding_all decide)
    (by with_unfolding_all decide) rfl

/-- C1 counterexample to the claim as stated: starting from two agents
with no prior edge, a "conflict" interaction leaves the graph holding a
persistent edge of strength exactly 0 — it is not pruned, so a
zero-strength edge does exist after a mutation. -/
theorem C1_counterexample :
    SocialSystem.update_relationship g1 "Alice" "Bob" "conflict" = .ok g1after
    ∧ g1after.edges = [⟨"Alice", "Bob", 0, SocialSystem.RelationshipType.conflict⟩] := by
  constructor
  · with_unfolding_all decide
  · rfl

/-! ## C7: `update_needs` / `get_critical_needs` -/

theorem update_needs_bounds_aux (changes : List (String × ℚ)) :
    ∀ (c : ShipOfFools.Character), ∀ p ∈ (c.update_needs changes).needs,
      (0 ≤ p.2.value ∧ p.2.value ≤ 100) ∨ p ∈ c.needs := by
  induction changes with
  | nil => intro c p hp; exact Or.inr hp
  | cons ch cs ih =>
    intro c p hp
    rcases ih (c.update_needs [ch]) p hp with hb | hmem
    · exact Or.inl hb
    · by_cases hany : (c.needs.any (fun q => decide (q.1 = ch.1))) = true
      · have hstep : (c.update_needs [ch]).needs = c.needs.map (fun q =>
            if q.1 = ch.1 then
              (q.1, { q.2 with value := ShipOfFools.clamp0100 (q.2.value + ch.2) })
            else q) := by
          show (if c.needs.any (fun q => decide (q.1 = ch.1)) = true
                then _ else c).needs = _
          rw [if_pos hany]
        rw [hstep] at hmem
        rcases List.mem_map.mp hmem with ⟨q, hq, rfl⟩
        by_cases hqe : q.1 = ch.1
        · rw [if_pos hqe]
          exact Or.inl (clamp0100_bounds _)
        · rw [if_neg hqe]
          exact Or.inr hq
      · have hstep : c.update_needs [ch] = c := by
          show (if c.needs.any (fun q => decide (q.1 = ch.1)) = true
                then _ else c) = c
          rw [if_neg hany]
        rw [hstep] at hmem
        exact Or.inr hmem

/-- C7: `update_needs` adds each named delta to the matching need and
clamps the result to [0, 100] regardless of magnitude; deltas whose name
matches no need are ignored with no error, leaving the agent unchanged.
Scenario: a sole `hunger` need at 10 (threshold 30) is critical; after a
+25 delta its value is 35 and nothing is critical. -/
theorem C7_update_needs_spec (c : ShipOfFools.Character) (nm : String) (d : ℚ)
    (changes : List (String × ℚ)) :
    (∀ p ∈ (c.update_needs changes).needs,
        (0 ≤ p.2.value ∧ p.2.value ≤ 100) ∨ p ∈ c.needs)
    ∧ ((∀ p ∈ c.needs, p.1 ≠ nm) → c.update_needs [(nm, d)] = c)
    ∧ ((∃ p ∈ c.needs, p.1 = nm) →
        (c.update_needs [(nm, d)]).needs = c.needs.map (fun p =>
          if p.1 = nm then
            (p.1, { p.2 with value := ShipOfFools.clamp0100 (p.2.value + d) })
          else p))
    ∧ (agentX.get_critical_needs = ["hunger"]
        ∧ (agentX.update_needs [("hunger", 25)]).needs
            = [("hunger", ⟨"hunger", 35, 30⟩)]
        ∧ (agentX.update_needs [("hunger", 25)]).get_critical_needs = []) := by
  refine ⟨update_needs_bounds_aux changes c, ?_, ?_,
    rfl, by with_unfolding_all decide, by with_unfolding_all decide⟩
  · intro h
    have hany : (c.needs.any (fun q => decide (q.1 = nm))) = false := by
      rw [List.any_eq_false]
      intro q hq
      simp only [decide_eq_true_eq]
      exact h q hq
    show (if c.needs.any (fun q => decide (q.1 = nm)) = true then _ else c) = c
    rw [hany]
    simp
  · intro h
    have hany : (c.needs.any (fun q => decide (q.1 = nm))) = true := by
      rw [List.any_eq_true]
      obtain ⟨p, hp, hpe⟩ := h
      exact ⟨p, hp, by simp [hpe]⟩
    show (if c.needs.any (fun q => decide (q.1 = nm)) = true then _ else c).needs = _
    rw [if_pos hany]

theorem C7_update_needs_spec_witness :
    (agentX.update_needs [("hunger", 25)]).needs = agentX.needs.map (fun p =>
      if p.1 = "hunger" then
        (p.1, { p.2 with value := ShipOfFools.clamp0100 (p.2.value + 25) })
      else p) :=
  (C7_update_needs_spec agentX "hunger" 25 []).2.2.1
    ⟨("hunger", ⟨"hunger", 10, 30⟩), by with_unfolding_all decide, rfl⟩

/-! ## C5: alliance formation folds into an existing alliance -/

theorem fold_into_first_none (id1 id2 : ℕ) (l : List ShipOfFools.Alliance)
    (h : ∀ B ∈ l, id1 ∉ B.members ∧ id2 ∉ B.members) :
    ShipOfFools.fold_into_first id1 id2 l = none := by
  induction l with
  | nil => rfl
  | cons a rest ih =>
    have ha := h a (List.mem_cons_self a rest)
    simp only [ShipOfFools.fold_into_first]
    rw [if_neg (by push_neg; exact ha)]
    rw [ih (fun B hB => h B (List.mem_cons_of_mem a hB))]
    rfl

theorem fold_into_first_found (id1 id2 : ℕ) (pre post : List ShipOfFools.Alliance)
    (A : ShipOfFools.Alliance)
    (hpre : ∀ B ∈ pre, id1 ∉ B.members ∧ id2 ∉ B.members)
    (hA : id1 ∈ A.members ∨ id2 ∈ A.members) :
    ShipOfFools.fold_into_first id1 id2 (pre ++ A :: post)
      = some (pre ++ ((A.add_member id1).add_member id2) :: post) := by
  induction pre with
  | nil =>
    simp only [List.nil_append, ShipOfFools.fold_into_first]
    rw [if_pos hA]
  | cons B pre ih =>
    have hB := hpre B (List.mem_cons_self B pre)
    simp only [List.cons_append, ShipOfFools.fold_into_first]
    rw [if_neg (by push_neg; exact hB)]
    simp only [List.append_eq]
    rw [ih (fun B2 h2 => hpre B2 (List.mem_cons_of_mem B h2))]
    rfl

/-- C5 (amended): when one agent already belongs to an alliance A (and no
earlier alliance in the list contains either agent) and the other agent is
fresh, both are folded into A — membership union, strength +5 per
`add_member` call, hence +10 since both endpoints are re-added — and
exactly one alliance contains both agents afterwards; a new alliance with
default strength 50 is created only when no existing alliance contains
either agent. -/
theorem C5_form_alliance_spec (c1 c2 : ShipOfFools.Character) (purpose : String)
    (day : ℕ) (pre post alls : List ShipOfFools.Alliance) (A : ShipOfFools.Alliance)
    (hA : c1.id ∈ A.members)
    (hpre : ∀ B ∈ pre, c1.id ∉ B.members ∧ c2.id ∉ B.members)
    (hfresh : ∀ B ∈ pre ++ A :: post, c2.id ∉ B.members) :
    (ShipOfFools.form_alliance c1 c2 (pre ++ A :: post) purpose day).alliances
      = pre ++ ({ A with
                  members := insert c2.id (insert c1.id A.members)
                  strength := A.strength + 10 }) :: post
    ∧ (ShipOfFools.form_alliance c1 c2 (pre ++ A :: post) purpose day).created_new = false
    ∧ ((ShipOfFools.form_alliance c1 c2 (pre ++ A :: post) purpose day).alliances.countP
        (fun al => decide (c1.id ∈ al.members ∧ c2.id ∈ al.members))) = 1
    ∧ ((∀ B ∈ alls, c1.id ∉ B.members ∧ c2.id ∉ B.members) →
        ShipOfFools.form_alliance c1 c2 alls purpose day
          = ⟨{ c1 with alliances := insert c2.id c1.alliances },
             { c2 with alliances := insert c1.id c2.alliances },
             alls ++ [{ members := {c1.id, c2.id}
                        purpose := purpose
                        strength := 50
                        created_day := day
                        broken := false }],
             true⟩) := by
  have hAm : (A.add_member c1.id).add_member c2.id
      = { A with
          members := insert c2.id (insert c1.id A.members)
          strength := A.strength + 10 } := by
    simp only [ShipOfFools.Alliance.add_member]
    congr 1
    ring
  have hfound := fold_into_first_found c1.id c2.id pre post A hpre (Or.inl hA)
  have halls : (ShipOfFools.form_alliance c1 c2 (pre ++ A :: post) purpose day).alliances
      = pre ++ ({ A with
          members := insert c2.id (insert c1.id A.members)
          strength := A.strength + 10 }) :: post := by
    simp only [ShipOfFools.form_alliance]
    rw [hfound, hAm]
  have hnew : (ShipOfFools.form_alliance c1 c2 (pre ++ A :: post) purpose day).created_new
      = false := by
    simp only [ShipOfFools.form_alliance]
    rw [hfound]
  refine ⟨halls, hnew, ?_, ?_⟩
  · rw [halls, List.countP_append, List.countP_cons]
    have hzpre : pre.countP (fun al => decide (c1.id ∈ al.members ∧ c2.id ∈ al.members)) = 0 := by
      rw [List.countP_eq_zero]
      intro B hB
      simp only [decide_eq_true_eq, not_and]
      intro _
      exact hfresh B (List.mem_append_left _ hB)
    have hzpost : post.countP (fun al => decide (c1.id ∈ al.members ∧ c2.id ∈ al.members)) = 0 := by
      rw [List.countP_eq_zero]
      intro B hB
      simp only [decide_eq_true_eq, not_and]
      intro _
      exact hfresh B (List.mem_append_right _ (List.mem_cons_of_mem A hB))
    have hmem1 : c1.id ∈ (insert c2.id (insert c1.id A.members) : Finset ℕ) :=
      Finset.mem_insert_of_mem (Finset.mem_insert_self c1.id A.members)
    have hmem2 : c2.id ∈ (insert c2.id (insert c1.id A.members) : Finset ℕ) :=
      Finset.mem_insert_self c2.id _
    rw [hzpre, hzpost]
    simp [hmem1, hmem2]
  · intro h
    simp only [ShipOfFools.form_alliance]
    rw [fold_into_first_none c1.id c2.id alls h]

theorem C5_form_alliance_spec_witness :
    (ShipOfFools.form_alliance exChar1 exChar3 ([] ++ exAlliance :: []) "p" 0).alliances
      = [] ++ ({ exAlliance with
          members := insert exChar3.id (insert exChar1.id exAlliance.members)
          strength := exAlliance.strength + 10 }) :: [] :=
  (C5_form_alliance_spec exChar1 exChar3 "p" 0 [] [] [] exAlliance
    (by with_unfolding_all decide) (by simp) (by with_unfolding_all decide)).1

/-- C5 counterexample to "strength increased by 5 per added member": with
members {1, 2} at strength 50, folding agents 1 and 3 together adds the
single new member 3 yet raises the strength by 10 (two `add_member` calls),
to 60 rather than 55. -/
theorem C5_counterexample :
    (ShipOfFools.form_alliance exChar1 exChar3 [exAlliance] "p" 0).alliances
      = [{ members := {3, 1, 2}
           purpose := "p"
           strength := 60
           created_day := 0
           broken := false }]
    ∧ (({3, 1, 2} : Finset ℕ) \ exAlliance.members).card = 1
    ∧ (60 : ℚ) ≠ exAlliance.strength + 5 * 1 := by
  refine ⟨by with_unfolding_all decide, by decide, by with_unfolding_all decide⟩

/-! ## C6: broken alliances -/

theorem update_alliances_length (trig : ℕ → Bool) (delta : ℕ → ℚ) :
    ∀ (k : ℕ) (alls : List ShipOfFools.Alliance),
      (ShipOfFools.update_alliances trig delta k alls).length = alls.length := by
  intro k alls
  induction alls generalizing k with
  | nil => rfl
  | cons a rest ih =>
    simp only [ShipOfFools.update_alliances]
    by_cases hb : a.broken = true
    · rw [if_pos hb]
      simp [ih]
    · rw [if_neg hb]
      by_cases ht : trig k = true
      · rw [if_pos ht]
        simp [ih]
      · rw [if_neg ht]
        simp [ih]

theorem update_alliances_broken_inert (trig : ℕ → Bool) (delta : ℕ → ℚ) :
    ∀ (k : ℕ) (alls : List ShipOfFools.Alliance) (i : ℕ) (b : ShipOfFools.Alliance),
      alls[i]? = some b → b.broken = true →
      (ShipOfFools.update_alliances trig delta k alls)[i]? = some b := by
  intro k alls
  induction alls generalizing k with
  | nil => intro i b h; simp at h
  | cons a rest ih =>
    intro i b hib hbb
    cases i with
    | zero =>
      simp only [List.getElem?_cons_zero, Option.some.injEq] at hib
      subst hib
      simp only [ShipOfFools.update_alliances]
      rw [if_pos hbb]
      simp
    | succ n =>
      simp only [List.getElem?_cons_succ] at hib
      simp only [ShipOfFools.update_alliances]
      by_cases hb : a.broken = true
      · rw [if_pos hb]
        simpa using ih k n b hib hbb
      · rw [if_neg hb]
        by_cases ht : trig k = true
        · rw [if_pos ht]
          simpa using ih (k + 1) n b hib hbb
        · rw [if_neg ht]
          simpa using ih (k + 1) n b hib hbb

/-- C6 (amended): `remove_member` sets the broken flag whenever fewer than
two members remain and never clears it, and the alliance tick
(`_update_alliances`) leaves broken alliances entirely unchanged (same
membership, strength and flag, never reactivated).  Alliance formation,
however, does not consult the broken flag — see the counterexample. -/
theorem C6_broken_alliance_spec (a : ShipOfFools.Alliance) (cid : ℕ)
    (trig : ℕ → Bool) (delta : ℕ → ℚ) (k : ℕ)
    (alls : List ShipOfFools.Alliance) (i : ℕ) (b : ShipOfFools.Alliance) :
    ((a.remove_member cid).members.card < 2 → (a.remove_member cid).broken = true)
    ∧ (a.broken = true → (a.remove_member cid).broken = true)
    ∧ (ShipOfFools.update_alliances trig delta k alls).length = alls.length
    ∧ (alls[i]? = some b → b.broken = true →
        (ShipOfFools.update_alliances trig delta k alls)[i]? = some b) := by
  refine ⟨?_, ?_, update_alliances_length trig delta k alls,
    update_alliances_broken_inert trig delta k alls i b⟩
  · intro h
    simp only [ShipOfFools.Alliance.remove_member] at h ⊢
    rw [if_pos h]
  · intro h
    simp only [ShipOfFools.Alliance.remove_member]
    by_cases hc : (a.members.erase cid).card < 2
    · rw [if_pos hc]
    · rw [if_neg hc]
      exact h

theorem C6_broken_alliance_spec_witness :
    (ShipOfFools.update_alliances (fun _ => true) (fun _ => 0) 0 [exBroken])[0]?
      = some exBroken :=
  (C6_broken_alliance_spec exBroken 1 (fun _ => true) (fun _ => 0) 0 [exBroken]
    0 exBroken).2.2.2 (by with_unfolding_all decide) rfl

/-- C6 counterexample to "a broken alliance is inert thereafter":
`_form_alliance` never checks the broken flag, so forming an alliance
between member 1 of a broken alliance and the fresh agent 3 adds member 3
to the broken alliance and raises its strength from 10 to 20. -/
theorem C6_counterexample :
    exBroken.broken = true
    ∧ (ShipOfFools.form_alliance exChar1 exChar3 [exBroken] "x" 1).alliances
        = [{ members := {3, 1, 2}
             purpose := "q"
             strength := 20
             created_day := 0
             broken := true }]
    ∧ (ShipOfFools.form_alliance exChar1 exChar3 [exBroken] "x" 1).created_new = false := by
  refine ⟨rfl, by with_unfolding_all decide, by with_unfolding_all decide⟩

/-! ## C2: `_attempt_mutiny` -/

/-- C2 (amended): with a nonempty mutineer list, a mutiny attempt succeeds
iff the number of supporters (non-captain agents with trust below 30)
exceeds half of the TOTAL number of characters — the incumbent included in
the denominator, not a majority among the non-incumbent agents alone.  On
success the captain's authority is zeroed and the heading set to 180
(south); on failure only the mutineers are penalized (`stress += 15`,
`influence -= 10`) and authority, heading and every role are unchanged. -/
theorem C2_attempt_mutiny_spec (chars : List ShipOfFools.Character) (auth hdg : ℚ)
    (hm : chars.filter (fun c => decide (ShipOfFools.is_mutineer c)) ≠ []) :
    ∃ r, ShipOfFools.attempt_mutiny chars auth hdg = .ok r
      ∧ (r.success = true ↔
          ((chars.filter (fun c => decide (ShipOfFools.is_supporter c))).length : ℚ)
            > (chars.length : ℚ) / 2)
      ∧ (r.success = true → r.captain_authority = 0 ∧ r.heading = 180
          ∧ r.characters = chars)
      ∧ (r.success = false → r.captain_authority = auth ∧ r.heading = hdg
          ∧ r.characters = chars.map (fun c =>
              if ShipOfFools.is_mutineer c then
                { c with stress := c.stress + 15, influence := c.influence - 10 }
              else c)) := by
  simp only [ShipOfFools.attempt_mutiny]
  by_cases hsup : ((chars.filter (fun c => decide (ShipOfFools.is_supporter c))).length : ℚ)
      > (chars.length : ℚ) / 2
  · rw [if_pos hsup]
    cases hmax : pyArgmax (fun c => c.influence)
        (chars.filter (fun c => decide (ShipOfFools.is_mutineer c))) with
    | none => exact absurd ((pyArgmax_eq_none_iff _ _).mp hmax) hm
    | some m =>
      refine ⟨⟨true, 0, 180, chars⟩, rfl, ⟨fun _ => hsup, fun _ => rfl⟩,
        fun _ => ⟨rfl, rfl, rfl⟩, fun h => Bool.noConfusion h⟩
  · rw [if_neg hsup]
    refine ⟨_, rfl, ⟨fun h => Bool.noConfusion h, fun hs => absurd hs hsup⟩,
      fun h => Bool.noConfusion h, fun _ => ⟨rfl, rfl, rfl⟩⟩

theorem C2_attempt_mutiny_spec_witness :
    ∃ r, ShipOfFools.attempt_mutiny mutinyShip 35 0 = .ok r
      ∧ (r.success = true ↔
          ((mutinyShip.filter (fun c => decide (ShipOfFools.is_supporter c))).length : ℚ)
            > (mutinyShip.length : ℚ) / 2)
      ∧ (r.success = true → r.captain_authority = 0 ∧ r.heading = 180
          ∧ r.characters = mutinyShip)
      ∧ (r.success = false → r.captain_authority = 35 ∧ r.heading = 0
          ∧ r.characters = mutinyShip.map (fun c =>
              if ShipOfFools.is_mutineer c then
                { c with stress := c.stress + 15, influence := c.influence - 10 }
              else c)) :=
  C2_attempt_mutiny_spec mutinyShip 35 0 (by with_unfolding_all decide)

/-- C2 counterexample to the claim as stated: in `mutinyShip` five of the
nine non-captain agents have trust below 30 — a support-count majority
among the non-incumbent agents — yet the mutiny fails (and the captain's
authority is untouched), because the code compares the support count with
half of all ten characters. -/
theorem C2_counterexample :
    (((mutinyShip.filter (fun c => decide (ShipOfFools.is_supporter c))).length : ℚ)
        > ((mutinyShip.filter (fun c => decide (c.role ≠ "captain"))).length : ℚ) / 2)
    ∧ (ShipOfFools.attempt_mutiny mutinyShip 35 0).map ShipOfFools.MutinyResult.success
        = .ok false
    ∧ (ShipOfFools.attempt_mutiny mutinyShip 35 0).map
        ShipOfFools.MutinyResult.captain_authority = .ok 35 := by
  refine ⟨by with_unfolding_all decide, by with_unfolding_all decide,
    by with_unfolding_all decide⟩

/-! ## C3: `check_for_leadership_change` -/

/-- C3 (amended): when the incumbent's trust is below the threshold 40 and
a top challenger exists, the incumbent is deposed only if the challenger's
influence strictly exceeds incumbent influence + trust (role "deposed",
challenger becomes captain); otherwise nothing changes at all — in
particular, no stress or influence penalty of any kind is applied to the
challengers on a failed attempt.  With incumbent influence 50 and trust 35
against a challenger of influence 60, succession does not occur. -/
theorem C3_check_succession_spec (cap : Leadership.LChar)
    (groups : List Leadership.Group) (nl : Leadership.LChar)
    (hlow : cap.trust_in_captain < 40)
    (hmax : pyArgmax (fun c => c.influence) (Leadership.candidatesOf cap groups)
      = some nl) :
    (nl.influence > cap.influence + cap.trust_in_captain →
        Leadership.check_for_leadership_change (some cap) groups
          = ⟨some { nl with role := "captain" }, some { cap with role := "deposed" },
             groups.map (fun g =>
               ⟨g.spokesperson.map (fun s =>
                 if s.id = nl.id then { nl with role := "captain" } else s)⟩),
             true⟩)
    ∧ (¬ nl.influence > cap.influence + cap.trust_in_captain →
        Leadership.check_for_leadership_change (some cap) groups
          = ⟨some cap, some cap, groups, false⟩)
    ∧ Leadership.check_for_leadership_change (some scenCap) [⟨some scenChallenger⟩]
        = ⟨some scenCap, some scenCap, [⟨some scenChallenger⟩], false⟩ := by
  refine ⟨?_, ?_, by with_unfolding_all decide⟩
  · intro hgt
    simp only [Leadership.check_for_leadership_change]
    rw [if_pos hlow, hmax]
    simp only []
    rw [if_pos hgt]
  · intro hle
    simp only [Leadership.check_for_leadership_change]
    rw [if_pos hlow, hmax]
    simp only []
    rw [if_neg hle]

theorem C3_check_succession_spec_witness :
    Leadership.check_for_leadership_change (some scenCap) [⟨some scenChallenger⟩]
      = ⟨some scenCap, some scenCap, [⟨some scenChallenger⟩], false⟩ :=
  (C3_check_succession_spec scenCap [⟨some scenChallenger⟩] scenChallenger
    (by with_unfolding_all decide) (by with_unfolding_all decide)).2.1
    (by with_unfolding_all decide)

/-- C3 counterexample to "on failure the challengers accrue a
stress/influence penalty": the incumbent's trust 35 is below the
threshold, the sole challenger's influence 60 does not exceed 50 + 35, and
the failed check leaves everything — including the challenger's stress 50
and influence 60 — completely unchanged; no penalty is applied. -/
theorem C3_counterexample :
    scenCap.trust_in_captain < 40
    ∧ scenChallenger.stress = 50 ∧ scenChallenger.influence = 60
    ∧ Leadership.check_for_leadership_change (some scenCap) [⟨some scenChallenger⟩]
        = ⟨some scenCap, some scenCap, [⟨some scenChallenger⟩], false⟩ := by
  refine ⟨by decide, rfl, rfl, by with_unfolding_all decide⟩

/-! ## C4: `apply_event_impact` raises `AttributeError` -/

theorem except_bind_error {ε α β : Type} (e : ε) (f : α → Except ε β) :
    (Except.error e >>= f) = Except.error e := rfl

theorem apply_impact_item_increase_err (sev : ℚ) (c : EventSystem.PyObj)
    (eff : String) (v : ℚ) (attr : String)
    (h1 : EventSystem.removeSuffix? eff "_increase" = some attr)
    (h2 : alookup c attr = none) :
    EventSystem.apply_impact_item sev c (eff, v) = .error (.attributeError attr) := by
  have hget : EventSystem.pyGetattr c attr = .error (.attributeError attr) := by
    simp only [EventSystem.pyGetattr, h2]
  simp only [EventSystem.apply_impact_item, h1, hget, except_bind_error]

theorem apply_impact_item_decrease_err (sev : ℚ) (c : EventSystem.PyObj)
    (eff : String) (v : ℚ) (attr : String)
    (h0 : EventSystem.removeSuffix? eff "_increase" = none)
    (h1 : EventSystem.removeSuffix? eff "_decrease" = some attr)
    (h2 : alookup c attr = none) :
    EventSystem.apply_impact_item sev c (eff, v) = .error (.attributeError attr) := by
  have hget : EventSystem.pyGetattr c attr = .error (.attributeError attr) := by
    simp only [EventSystem.pyGetattr, h2]
  simp only [EventSystem.apply_impact_item, h0, h1, hget, except_bind_error]

theorem apply_to_char_head_err (ev : EventSystem.Event) (c : EventSystem.PyObj)
    (item : String × ℚ) (items : List (String × ℚ)) (er : PyErr)
    (himp : ev.impact = item :: items)
    (h : EventSystem.apply_impact_item ev.severity c item = .error er) :
    EventSystem.apply_to_char ev c = .error er := by
  simp only [EventSystem.apply_to_char, himp, List.foldlM_cons, h, except_bind_error]

theorem apply_event_impact_cons_err (ev : EventSystem.Event) (c : EventSystem.PyObj)
    (rest : List EventSystem.PyObj) (er : PyErr)
    (h : EventSystem.apply_to_char ev c = .error er) :
    EventSystem.apply_event_impact (c :: rest) ev = .error er := by
  simp only [EventSystem.apply_event_impact, List.foldlM_cons, h, except_bind_error]

/-- C4: for every event of the predefined catalog (at any severity) and
every non-empty list of `character.py` characters, `apply_event_impact`
raises `AttributeError` instead of completing: each event's first impact
key already names an attribute (`hunger`, `trust`, `stress`,
`moral_distress`) that `Character.__init__` never assigns, and the
psychological-state branches reference the enum members `ANXIOUS`, `CALM`
and `AGGRESSIVE`, none of which exist in `PsychologicalState`. -/
theorem C4_apply_event_attribute_error (ev : EventSystem.Event) (sev : ℚ)
    (chars : List EventSystem.PyObj)
    (hev : ev ∈ EventSystem.predefined_events) (hne : chars ≠ [])
    (hdom : ∀ c ∈ chars, c.map Prod.fst = EventSystem.characterAttrDomain) :
    EventSystem.isAttrError
      (EventSystem.apply_event_impact chars { ev with severity := sev }) = true
    ∧ "ANXIOUS" ∉ EventSystem.PsychologicalStateMembers
    ∧ "CALM" ∉ EventSystem.PsychologicalStateMembers
    ∧ "AGGRESSIVE" ∉ EventSystem.PsychologicalStateMembers := by
  refine ⟨?_, by decide, by decide, by decide⟩
  obtain ⟨c, rest, rfl⟩ : ∃ c rest, chars = c :: rest := by
    cases chars with
    | nil => exact absurd rfl hne
    | cons c rest => exact ⟨c, rest, rfl⟩
  have hdomc := hdom c (List.mem_cons_self c rest)
  simp only [EventSystem.predefined_events, List.mem_cons, List.mem_singleton,
    List.not_mem_nil, or_false] at hev
  rcases hev with rfl | rfl | rfl | rfl
  · have h3 := apply_impact_item_increase_err sev c "hunger_increase" (5/10) "hunger"
      (by decide)
      (alookup_eq_none_of_not_mem c "hunger" (by rw [hdomc]; decide))
    rw [apply_event_impact_cons_err _ c rest _ (apply_to_char_head_err _ c _ _ _ rfl h3)]
    rfl
  · have h3 := apply_impact_item_decrease_err sev c "trust_decrease" (4/10) "trust"
      (by decide) (by decide)
      (alookup_eq_none_of_not_mem c "trust" (by rw [hdomc]; decide))
    rw [apply_event_impact_cons_err _ c rest _ (apply_to_char_head_err _ c _ _ _ rfl h3)]
    rfl
  · have h3 := apply_impact_item_increase_err sev c "stress_increase" (3/10) "stress"
      (by decide)
      (alookup_eq_none_of_not_mem c "stress" (by rw [hdomc]; decide))
    rw [apply_event_impact_cons_err _ c rest _ (apply_to_char_head_err _ c _ _ _ rfl h3)]
    rfl
  · have h3 := apply_impact_item_increase_err sev c "moral_distress_increase" (6/10)
      "moral_distress" (by decide)
      (alookup_eq_none_of_not_mem c "moral_distress" (by rw [hdomc]; decide))
    rw [apply_event_impact_cons_err _ c rest _ (apply_to_char_head_err _ c _ _ _ rfl h3)]
    rfl

theorem C4_apply_event_attribute_error_witness :
    EventSystem.isAttrError
      (EventSystem.apply_event_impact [exPyChar] { evFoodShortage with severity := 3/4 })
      = true :=
  (C4_apply_event_attribute_error evFoodShortage (3/4) [exPyChar]
    (by with_unfolding_all decide) (by simp)
    (by intro c hc; rw [List.mem_singleton] at hc; subst hc; rfl)).1
